import Mathlib

/-!
Shallow embedding of `src/app.py` (zk-gas-soundness): a single-shot CLI that
fetches the last N block headers over RPC, derives per-block gas metrics, and
reduces them to summary statistics.

Modelling conventions:
* Python ints are `Int`; the float arithmetic of `gas_used / gas_limit * 100`
  and the averages is modelled exactly over `ℚ`.
* Python's `round(x, n)` rounds half to even; `pyRound n x` models it on `ℚ`.
* The web3 block object is `RpcBlock`, with every field optional: `block.get`
  with a default never fails, while attribute access (`block.number`,
  `block.timestamp`) fails when the field is absent.  A failing remote call or
  attribute access is `none`.
* Python dicts returned by `summarize` are association lists `List (String × JVal)`.
* The console progress prints and the remote fetches of `analyze_blocks` are
  recorded as an event trace, in emission order.
-/

/-- Round half to even to an integer, as Python's builtin `round` does
(written with `Rat.floor` so that it evaluates by `decide`). -/
def rhe (q : ℚ) : ℤ :=
  if q - Rat.floor q < 1/2 then Rat.floor q
  else if 1/2 < q - Rat.floor q then Rat.floor q + 1
  else if Rat.floor q % 2 = 0 then Rat.floor q else Rat.floor q + 1

/-- Python's `round(x, n)` for nonnegative `n`, on exact rationals. -/
def pyRound (n : ℕ) (q : ℚ) : ℚ :=
  (rhe (q * 10 ^ n) : ℚ) / 10 ^ n

/-- A block header as returned by the RPC layer (`w3.eth.get_block`); every
field may be absent in a malformed response. -/
structure RpcBlock where
  number : Option Int
  timestamp : Option Int
  baseFeePerGas : Option Int
  gasLimit : Option Int
  gasUsed : Option Int
deriving DecidableEq

/-- The chain as seen through the RPC connection: a partial map from block
identifier to header; `none` is a failing call (unknown block / disconnect). -/
def Chain : Type := Int → Option RpcBlock

/-- The per-block record built by `fetch_gas_data` (the block's Unix timestamp
is kept as an integer; the source only re-formats it as an ISO string). -/
structure BlockMetrics where
  block_number : Int
  base_fee_wei : Int
  gas_limit : Int
  gas_used : Int
  utilization_percent : ℚ
  timestamp : Int
deriving DecidableEq

/-- `fetch_gas_data(w3, block_id)` from `src/app.py`.  `block.get(k, 0)` is
`Option.getD _ 0`; the attribute accesses `block.number` and `block.timestamp`
raise when the field is absent, and `w3.eth.get_block` raises on an unknown
block: both failure modes are `none`. -/
def fetch_gas_data (chain : Chain) (block_id : Int) : Option BlockMetrics :=
  match chain block_id with
  | none => none
  | some block =>
    let base_fee := block.baseFeePerGas.getD 0
    let gas_limit := block.gasLimit.getD 0
    let gas_used := block.gasUsed.getD 0
    let utilization : ℚ :=
      if gas_limit ≠ 0 then pyRound 2 ((gas_used : ℚ) / (gas_limit : ℚ) * 100) else 0
    match block.number, block.timestamp with
    | some n, some ts =>
      some { block_number := n
             base_fee_wei := base_fee
             gas_limit := gas_limit
             gas_used := gas_used
             utilization_percent := utilization
             timestamp := ts }
    | _, _ => none

/-- Observable actions of `analyze_blocks`: the console progress line
(position, total, percentage) and the remote fetch of one block. -/
inductive Event where
  | progress (position : Int) (total : Int) (percent : ℚ) : Event
  | fetch (block_id : Int) : Event
deriving DecidableEq

/-- The block numbers visited by `for i in range(latest - count + 1, latest + 1)`. -/
def blockRange (latest count : Int) : List Int :=
  (List.range count.toNat).map (fun (k : ℕ) => latest - count + 1 + (k : Int))

/-- The loop body of `analyze_blocks`, over a list of block identifiers:
each iteration prints the progress line, then fetches; an exception aborts the
loop (the partial list is discarded) but the events already emitted remain. -/
def analyzeLoop (chain : Chain) (latest count : Int) :
    List Int → List Event × Option (List BlockMetrics)
  | [] => ([], some [])
  | i :: rest =>
    let processed := i - (latest - count + 1) + 1
    let percent : ℚ := (processed : ℚ) / (count : ℚ) * 100
    let evs := [Event.progress processed count percent, Event.fetch i]
    match fetch_gas_data chain i with
    | none => (evs, none)
    | some b =>
      let tail := analyzeLoop chain latest count rest
      (evs ++ tail.1, tail.2.map (fun bs => b :: bs))

/-- `analyze_blocks(w3, count)` from `src/app.py`, with the chain head
`w3.eth.block_number` observed at call time passed as `latest`.  Returns the
emitted event trace together with the result (`none` when a fetch raised). -/
def analyze_blocks (chain : Chain) (latest count : Int) :
    List Event × Option (List BlockMetrics) :=
  analyzeLoop chain latest count (blockRange latest count)

/-- Values stored in the summary dict. -/
inductive JVal where
  | b (x : Bool)
  | s (x : String)
  | q (x : ℚ)
  | n (x : ℕ)
deriving DecidableEq

/-- `summarize(blocks)` from `src/app.py`; the returned Python dict is an
association list in insertion order. -/
def summarize (blocks : List BlockMetrics) : List (String × JVal) :=
  match blocks with
  | [] => [("ok", JVal.b false), ("msg", JVal.s "No data")]
  | b :: bs =>
    let utils := (b :: bs).map (fun x => x.utilization_percent)
    let avg_util : ℚ := utils.sum / (utils.length : ℚ)
    let high : ℚ := (bs.map (fun x => x.utilization_percent)).foldl max b.utilization_percent
    let low : ℚ := (bs.map (fun x => x.utilization_percent)).foldl min b.utilization_percent
    let fee_sum : Int := ((b :: bs).map (fun x => x.base_fee_wei)).sum
    let avg_base_fee : ℚ := (fee_sum : ℚ) / ((b :: bs).length : ℚ)
    [("avg_utilization_percent", JVal.q (pyRound 2 avg_util)),
     ("max_utilization_percent", JVal.q (pyRound 2 high)),
     ("min_utilization_percent", JVal.q (pyRound 2 low)),
     ("avg_base_fee_gwei", JVal.q (pyRound 3 (avg_base_fee / (10 ^ 9 : ℚ)))),
     ("total_blocks", JVal.n (b :: bs).length)]

/-- How the process run ends (the phase after the connectivity checks of
`main`): a clean `sys.exit(code)` or an uncaught exception, which terminates
the process with neither exit code 0 nor exit code 2. -/
inductive Outcome where
  | exit (code : ℕ)
  | uncaught (msg : String)
deriving DecidableEq

/-- The fetch/analyze/report phase of `main` (lines 85-111 of `src/app.py`):
the `try` block covers `analyze_blocks` and `summarize` and turns any raise
into `sys.exit(2)`; the summary prints after it read the five statistical keys
unchecked, so a missing key raises an uncaught `KeyError`. -/
def mainRun (chain : Chain) (latest count : Int) : Outcome :=
  match (analyze_blocks chain latest count).2 with
  | none => Outcome.exit 2
  | some blocks =>
    let summary := summarize blocks
    match summary.lookup "avg_utilization_percent" with
    | none => Outcome.uncaught "KeyError: avg_utilization_percent"
    | some _ =>
      match summary.lookup "max_utilization_percent" with
      | none => Outcome.uncaught "KeyError: max_utilization_percent"
      | some _ =>
        match summary.lookup "min_utilization_percent" with
        | none => Outcome.uncaught "KeyError: min_utilization_percent"
        | some _ =>
          match summary.lookup "avg_base_fee_gwei" with
          | none => Outcome.uncaught "KeyError: avg_base_fee_gwei"
          | some _ =>
            match summary.lookup "total_blocks" with
            | none => Outcome.uncaught "KeyError: total_blocks"
            | some _ => Outcome.exit 0

/-! ### Demo chain used in concrete witnesses -/

/-- A well-formed chain: every block reports its own number, a zero timestamp,
base fee 10^9 wei, gas limit 30000000 and gas used 15000000. -/
def demoChain : Chain := fun i =>
  some { number := some i, timestamp := some 0, baseFeePerGas := some 1000000000,
         gasLimit := some 30000000, gasUsed := some 15000000 }

/-- A response missing the `gasLimit` field (but with `number` and
`timestamp` present). -/
def malformedChain : Chain := fun _ =>
  some { number := some 5, timestamp := some 7, baseFeePerGas := some 9,
         gasLimit := none, gasUsed := some 3 }

/-! ### Rounding lemmas -/

theorem ratFloor_eq (q : ℚ) : Rat.floor q = ⌊q⌋ := by
  rw [Rat.floor_def', Rat.floor_def]

theorem rhe_def (q : ℚ) :
    rhe q =
      if q - ⌊q⌋ < 1/2 then ⌊q⌋
      else if 1/2 < q - ⌊q⌋ then ⌊q⌋ + 1
      else if Even ⌊q⌋ then ⌊q⌋ else ⌊q⌋ + 1 := by
  unfold rhe
  rw [ratFloor_eq]
  simp only [Int.even_iff]

theorem rhe_intCast (n : ℤ) : rhe (n : ℚ) = n := by
  rw [rhe_def]
  rw [Int.floor_intCast]
  norm_num

theorem floor_le_rhe (q : ℚ) : ⌊q⌋ ≤ rhe q := by
  rw [rhe_def]
  split_ifs <;> omega

theorem rhe_le_floor_add_one (q : ℚ) : rhe q ≤ ⌊q⌋ + 1 := by
  rw [rhe_def]
  split_ifs <;> omega

theorem rhe_mono {x y : ℚ} (h : x ≤ y) : rhe x ≤ rhe y := by
  have hf : ⌊x⌋ ≤ ⌊y⌋ := Int.floor_le_floor h
  rcases eq_or_lt_of_le hf with hf' | hf'
  · rw [rhe_def, rhe_def]
    rw [← hf']
    split_ifs <;> first | omega | (exfalso; linarith)
  · calc rhe x ≤ ⌊x⌋ + 1 := rhe_le_floor_add_one x
    _ ≤ ⌊y⌋ := by omega
    _ ≤ rhe y := floor_le_rhe y

theorem pyRound_mono (n : ℕ) {x y : ℚ} (h : x ≤ y) : pyRound n x ≤ pyRound n y := by
  unfold pyRound
  have hp : (0 : ℚ) < 10 ^ n := by positivity
  have h1 : x * 10 ^ n ≤ y * 10 ^ n := mul_le_mul_of_nonneg_right h (le_of_lt hp)
  have h3 : ((rhe (x * 10 ^ n) : ℚ)) ≤ ((rhe (y * 10 ^ n) : ℚ)) := by
    exact_mod_cast rhe_mono h1
  gcongr

theorem pyRound_intCast (n : ℕ) (m : ℤ) : pyRound n (m : ℚ) = m := by
  unfold pyRound
  have h : ((m : ℚ) * 10 ^ n) = (((m * 10 ^ n : ℤ)) : ℚ) := by push_cast; ring
  rw [h, rhe_intCast]
  have hp : ((10 : ℚ)) ^ n ≠ 0 := by positivity
  push_cast
  field_simp

/-! ### Bounds for `max(...)` / `min(...)` over a nonempty list (Python's
`max(utils)` on `u :: us` is `us.foldl max u`). -/

theorem le_foldl_max (us : List ℚ) (u : ℚ) : u ≤ us.foldl max u := by
  induction us generalizing u with
  | nil => exact le_refl u
  | cons v vs ih => exact le_trans (le_max_left u v) (ih (max u v))

theorem mem_le_foldl_max (us : List ℚ) (u x : ℚ) (hx : x ∈ us) : x ≤ us.foldl max u := by
  induction us generalizing u with
  | nil => cases hx
  | cons v vs ih =>
    rcases List.mem_cons.mp hx with h | h
    · subst h
      exact le_trans (le_max_right u x) (le_foldl_max vs (max u x))
    · exact ih (max u v) h

theorem foldl_max_le (us : List ℚ) (u c : ℚ) (hu : u ≤ c) (h : ∀ x ∈ us, x ≤ c) :
    us.foldl max u ≤ c := by
  induction us generalizing u with
  | nil => exact hu
  | cons v vs ih =>
    exact ih (max u v) (max_le hu (h v (List.mem_cons_self v vs)))
      (fun x hx => h x (List.mem_cons_of_mem v hx))

theorem foldl_max_choice (us : List ℚ) (u : ℚ) :
    us.foldl max u = u ∨ us.foldl max u ∈ us := by
  induction us generalizing u with
  | nil => exact Or.inl rfl
  | cons v vs ih =>
    rcases ih (max u v) with h | h
    · rcases max_choice u v with h' | h'
      · exact Or.inl (by rw [List.foldl_cons, h, h'])
      · exact Or.inr (by rw [List.foldl_cons, h, h']; exact List.mem_cons_self v vs)
    · exact Or.inr (List.mem_cons_of_mem v h)

theorem foldl_min_le (us : List ℚ) (u : ℚ) : us.foldl min u ≤ u := by
  induction us generalizing u with
  | nil => exact le_refl u
  | cons v vs ih => exact le_trans (ih (min u v)) (min_le_left u v)

theorem foldl_min_le_mem (us : List ℚ) (u x : ℚ) (hx : x ∈ us) : us.foldl min u ≤ x := by
  induction us generalizing u with
  | nil => cases hx
  | cons v vs ih =>
    rcases List.mem_cons.mp hx with h | h
    · subst h
      exact le_trans (foldl_min_le vs (min u x)) (min_le_right u x)
    · exact ih (min u v) h

theorem le_foldl_min (us : List ℚ) (u c : ℚ) (hu : c ≤ u) (h : ∀ x ∈ us, c ≤ x) :
    c ≤ us.foldl min u := by
  induction us generalizing u with
  | nil => exact hu
  | cons v vs ih =>
    exact ih (min u v) (le_min hu (h v (List.mem_cons_self v vs)))
      (fun x hx => h x (List.mem_cons_of_mem v hx))

theorem foldl_min_choice (us : List ℚ) (u : ℚ) :
    us.foldl min u = u ∨ us.foldl min u ∈ us := by
  induction us generalizing u with
  | nil => exact Or.inl rfl
  | cons v vs ih =>
    rcases ih (min u v) with h | h
    · rcases min_choice u v with h' | h'
      · exact Or.inl (by rw [List.foldl_cons, h, h'])
      · exact Or.inr (by rw [List.foldl_cons, h, h']; exact List.mem_cons_self v vs)
    · exact Or.inr (List.mem_cons_of_mem v h)

/-- The arithmetic mean of a nonempty list lies between `min` and `max`. -/
theorem avg_between (u : ℚ) (us : List ℚ) :
    us.foldl min u ≤ (u :: us).sum / (((u :: us).length : ℕ) : ℚ) ∧
    (u :: us).sum / (((u :: us).length : ℕ) : ℚ) ≤ us.foldl max u := by
  have hlen : (0 : ℚ) < (((u :: us).length : ℕ) : ℚ) := by
    simp [List.length_cons]
    positivity
  constructor
  · rw [le_div_iff₀ hlen]
    have h : ∀ x ∈ (u :: us), us.foldl min u ≤ x := by
      intro x hx
      rcases List.mem_cons.mp hx with rfl | h
      · exact foldl_min_le us x
      · exact foldl_min_le_mem us u x h
    have := List.card_nsmul_le_sum (u :: us) (us.foldl min u) h
    rw [nsmul_eq_mul] at this
    linarith [this]
  · rw [div_le_iff₀ hlen]
    have h : ∀ x ∈ (u :: us), x ≤ us.foldl max u := by
      intro x hx
      rcases List.mem_cons.mp hx with rfl | h
      · exact le_foldl_max us x
      · exact mem_le_foldl_max us u x h
    have := List.sum_le_card_nsmul (u :: us) (us.foldl max u) h
    rw [nsmul_eq_mul] at this
    linarith [this]

/-! ### Characterization of `fetch_gas_data` and the analyzer loop -/

/-- Inversion: a successful fetch comes from a present response and copies the
extracted fields. -/
theorem fetch_gas_data_eq (chain : Chain) (i : Int) (m : BlockMetrics)
    (h : fetch_gas_data chain i = some m) :
    ∃ b, chain i = some b ∧
      b.number = some m.block_number ∧
      b.timestamp = some m.timestamp ∧
      m.base_fee_wei = b.baseFeePerGas.getD 0 ∧
      m.gas_limit = b.gasLimit.getD 0 ∧
      m.gas_used = b.gasUsed.getD 0 ∧
      m.utilization_percent =
        (if b.gasLimit.getD 0 ≠ 0 then
          pyRound 2 ((b.gasUsed.getD 0 : ℚ) / (b.gasLimit.getD 0 : ℚ) * 100)
        else 0) := by
  unfold fetch_gas_data at h
  cases hc : chain i with
  | none => rw [hc] at h; exact Option.noConfusion h
  | some b =>
    rw [hc] at h
    cases hn : b.number with
    | none =>
      simp only [hn] at h
      exact Option.noConfusion h
    | some n =>
      cases ht : b.timestamp with
      | none =>
        simp only [hn, ht] at h
        exact Option.noConfusion h
      | some t =>
        simp only [hn, ht, Option.some.injEq] at h
        subst h
        exact ⟨b, rfl, hn, ht, rfl, rfl, rfl, rfl⟩

/-- A response that carries `number` and `timestamp` always yields a record,
whatever gas fields are present. -/
theorem fetch_gas_data_total (chain : Chain) (i : Int) (b : RpcBlock) (n t : Int)
    (hb : chain i = some b) (hn : b.number = some n) (ht : b.timestamp = some t) :
    fetch_gas_data chain i =
      some { block_number := n
             base_fee_wei := b.baseFeePerGas.getD 0
             gas_limit := b.gasLimit.getD 0
             gas_used := b.gasUsed.getD 0
             utilization_percent :=
               if b.gasLimit.getD 0 ≠ 0 then
                 pyRound 2 ((b.gasUsed.getD 0 : ℚ) / (b.gasLimit.getD 0 : ℚ) * 100)
               else 0
             timestamp := t } := by
  unfold fetch_gas_data
  rw [hb]
  simp only [hn, ht]

/-- A fetch against a block whose response reports its own number succeeds and
records that number. -/
theorem fetch_gas_data_spec (chain : Chain) (i : Int) (b : RpcBlock) (t : Int)
    (hb : chain i = some b) (hn : b.number = some i) (ht : b.timestamp = some t) :
    ∃ m, fetch_gas_data chain i = some m ∧ m.block_number = i :=
  ⟨_, fetch_gas_data_total chain i b i t hb hn ht, rfl⟩

theorem blockRange_length (latest count : Int) :
    (blockRange latest count).length = count.toNat := by
  unfold blockRange
  rw [List.length_map, List.length_range]

theorem blockRange_get (latest count : Int) (k : ℕ)
    (hk : k < (blockRange latest count).length) :
    (blockRange latest count).get ⟨k, hk⟩ = latest - count + 1 + (k : Int) := by
  unfold blockRange
  simp only [List.get_eq_getElem, List.getElem_map, List.getElem_range]

/-- When every block in `ids` fetches successfully, the loop returns the
records in order (with their reported numbers) and the trace interleaves, for
each block, first the progress line and then the fetch. -/
theorem analyzeLoop_success (chain : Chain) (latest count : Int) (ids : List Int)
    (h : ∀ i ∈ ids, ∃ m, fetch_gas_data chain i = some m ∧ m.block_number = i) :
    ∃ ms, (analyzeLoop chain latest count ids).2 = some ms ∧
      ms.map (fun m => m.block_number) = ids ∧
      (analyzeLoop chain latest count ids).1 =
        ids.flatMap (fun i =>
          [Event.progress (i - (latest - count + 1) + 1) count
             (((i - (latest - count + 1) + 1 : Int) : ℚ) / (count : ℚ) * 100),
           Event.fetch i]) := by
  induction ids with
  | nil => exact ⟨[], rfl, rfl, rfl⟩
  | cons i rest ih =>
    obtain ⟨m, hm, hbn⟩ := h i (List.mem_cons_self i rest)
    obtain ⟨ms, h1, h2, h3⟩ := ih (fun j hj => h j (List.mem_cons_of_mem i hj))
    refine ⟨m :: ms, ?_, ?_, ?_⟩
    · simp only [analyzeLoop, hm]
      rw [h1]
      rfl
    · simp only [List.map_cons, hbn, h2]
    · simp only [analyzeLoop, hm, List.flatMap_cons]
      rw [h3]

theorem blockRange_cons (latest count : Int) (h : 0 < count) :
    ∃ rest, blockRange latest count = (latest - count + 1) :: rest := by
  obtain ⟨m, hm⟩ : ∃ m, count.toNat = m + 1 := ⟨count.toNat - 1, by omega⟩
  unfold blockRange
  rw [hm, List.range_succ_eq_map, List.map_cons]
  have h0 : latest - count + 1 + ((0 : ℕ) : Int) = latest - count + 1 := by push_cast; ring
  rw [h0]
  exact ⟨_, rfl⟩

theorem fetch_mem_analyzeLoop (chain : Chain) (latest count : Int) (i : Int)
    (rest : List Int) :
    Event.fetch i ∈ (analyzeLoop chain latest count (i :: rest)).1 := by
  cases hf : fetch_gas_data chain i <;> simp [analyzeLoop, hf]

theorem pyRound_nonneg (n : ℕ) {x : ℚ} (hx : 0 ≤ x) : 0 ≤ pyRound n x := by
  have h := pyRound_mono n hx
  rwa [show pyRound n 0 = 0 from by simpa using pyRound_intCast n 0] at h

theorem pyRound_le_hundred (n : ℕ) {x : ℚ} (hx : x ≤ 100) : pyRound n x ≤ 100 := by
  have h := pyRound_mono n hx
  rwa [show pyRound n (100 : ℚ) = 100 from by simpa using pyRound_intCast n 100] at h

/-- The `RpcBlock` that `demoChain` serves at height 998. -/
def demoRpc : RpcBlock :=
  { number := some 998, timestamp := some 0, baseFeePerGas := some 1000000000,
    gasLimit := some 30000000, gasUsed := some 15000000 }

/-- The record `fetch_gas_data` builds from `demoRpc`. -/
def demoMetrics : BlockMetrics :=
  { block_number := 998, base_fee_wei := 1000000000, gas_limit := 30000000,
    gas_used := 15000000, utilization_percent := 50, timestamp := 0 }

/-- A chain whose responses lack the `number` field. -/
def headlessChain : Chain := fun _ =>
  some { number := none, timestamp := some 1, baseFeePerGas := some 2,
         gasLimit := some 3, gasUsed := some 4 }

/-! ### Claims -/

/-- C1 counterexample: a response with `gasLimit` absent (but `number` and
`timestamp` present) does NOT make `fetch_gas_data` fail; it returns a
`BlockMetrics` record with `gas_limit` defaulted to 0, refuting the claim that
only an absent `baseFeePerGas` is tolerated. -/
theorem fetch_missing_gasLimit_succeeds :
    fetch_gas_data malformedChain 5 ≠ none ∧
    fetch_gas_data malformedChain 5 =
      some { block_number := 5, base_fee_wei := 9, gas_limit := 0, gas_used := 3,
             utilization_percent := 0, timestamp := 7 } := by
  constructor
  · decide
  · decide

/-- C1 (amended): `fetch_gas_data` tolerates an absent `baseFeePerGas`,
`gasLimit` or `gasUsed` alike, defaulting each to 0 (with utilization 0 when
the defaulted gas limit is 0); it fails only when the remote call itself fails
or the response lacks `number` or `timestamp`. -/
theorem fetch_gas_fields_defaulted :
    (∀ (chain : Chain) (i : Int) (b : RpcBlock) (n t : Int),
       chain i = some b → b.number = some n → b.timestamp = some t →
       fetch_gas_data chain i =
         some { block_number := n
                base_fee_wei := b.baseFeePerGas.getD 0
                gas_limit := b.gasLimit.getD 0
                gas_used := b.gasUsed.getD 0
                utilization_percent :=
                  if b.gasLimit.getD 0 ≠ 0 then
                    pyRound 2 ((b.gasUsed.getD 0 : ℚ) / (b.gasLimit.getD 0 : ℚ) * 100)
                  else 0
                timestamp := t }) ∧
    (∀ (chain : Chain) (i : Int) (b : RpcBlock),
       chain i = some b → (b.number = none ∨ b.timestamp = none) →
       fetch_gas_data chain i = none) := by
  constructor
  · exact fetch_gas_data_total
  · intro chain i b hb h
    rcases h with hn | ht
    · unfold fetch_gas_data
      rw [hb]
      simp only [hn]
    · unfold fetch_gas_data
      rw [hb]
      cases hn : b.number <;> simp only [hn, ht]

/-- Witness for C1 (amended): a response missing `gasLimit` still yields a
record; a response missing `number` yields a failure. -/
theorem fetch_gas_fields_defaulted_witness :
    fetch_gas_data malformedChain 5 =
      some { block_number := 5, base_fee_wei := 9, gas_limit := 0, gas_used := 3,
             utilization_percent := 0, timestamp := 7 } ∧
    fetch_gas_data headlessChain 0 = none :=
  ⟨fetch_gas_fields_defaulted.1 malformedChain 5 _ 5 7 rfl rfl rfl,
   fetch_gas_fields_defaulted.2 headlessChain 0 _ rfl (Or.inl rfl)⟩

/-- C3: for every record produced by `fetch_gas_data`, when `gas_limit > 0`
the utilization is `round(gas_used / gas_limit * 100, 2)`, and when
`gas_limit = 0` the utilization is 0. -/
theorem utilization_percent_formula (chain : Chain) (i : Int) (m : BlockMetrics)
    (hm : fetch_gas_data chain i = some m) :
    (0 < m.gas_limit →
      m.utilization_percent = pyRound 2 ((m.gas_used : ℚ) / (m.gas_limit : ℚ) * 100)) ∧
    (m.gas_limit = 0 → m.utilization_percent = 0) := by
  obtain ⟨b, _, _, _, _, hL, hU, hutil⟩ := fetch_gas_data_eq chain i m hm
  rw [← hL, ← hU] at hutil
  constructor
  · intro hpos
    rw [hutil, if_pos (by omega)]
  · intro h0
    rw [hutil, if_neg (not_not_intro h0)]

/-- Witness for C3: the scenario `gasLimit = 30000000`, `gasUsed = 15000000`
gives `utilization_percent = 50`. -/
theorem utilization_percent_formula_witness :
    ((0 < demoMetrics.gas_limit →
       demoMetrics.utilization_percent =
         pyRound 2 ((demoMetrics.gas_used : ℚ) / (demoMetrics.gas_limit : ℚ) * 100)) ∧
     (demoMetrics.gas_limit = 0 → demoMetrics.utilization_percent = 0)) ∧
    demoMetrics.utilization_percent = 50 :=
  ⟨utilization_percent_formula demoChain 998 demoMetrics
    (by norm_num [fetch_gas_data, demoChain, demoMetrics, pyRound, rhe_def]), rfl⟩

/-- C6: on the empty sequence `summarize` returns the "no data" sentinel
`{"ok": False, "msg": "No data"}` (it is a total function, so it never
raises), and the sentinel is distinguishable from every non-empty summary. -/
theorem summarize_empty_sentinel :
    summarize [] = [("ok", JVal.b false), ("msg", JVal.s "No data")] ∧
    ∀ (b : BlockMetrics) (bs : List BlockMetrics), summarize (b :: bs) ≠ summarize [] := by
  refine ⟨rfl, ?_⟩
  intro b bs h
  have hl := congrArg List.length h
  simp [summarize] at hl

/-- C8: with an empty analyzed sequence (count = 0), `summarize` returns the
sentinel whose only keys are `ok` and `msg`, the unchecked read of
`avg_utilization_percent` in `main` finds no such key, and the run ends as an
uncaught KeyError: an outcome distinct from every clean exit code (in
particular neither 0 nor 2). -/
theorem empty_sequence_keyerror (chain : Chain) (latest : Int) :
    (analyze_blocks chain latest 0).2 = some [] ∧
    (summarize []).map Prod.fst = ["ok", "msg"] ∧
    (summarize []).lookup "avg_utilization_percent" = none ∧
    mainRun chain latest 0 = Outcome.uncaught "KeyError: avg_utilization_percent" ∧
    ∀ c : ℕ, mainRun chain latest 0 ≠ Outcome.exit c := by
  refine ⟨rfl, rfl, rfl, rfl, ?_⟩
  intro c h
  have h' : Outcome.uncaught "KeyError: avg_utilization_percent" = Outcome.exit c := h
  exact Outcome.noConfusion h'

/-- C9: when `latest - count + 1 < 0` (the requested range reaches below
block 0), `analyze_blocks` neither rejects nor clamps the range: the negative
number `latest - count + 1` is in the visited range, and the Fetcher is
actually invoked on it (a fetch event for it is in the trace), whatever the
remote call then does. -/
theorem analyze_requests_negative_blocks (chain : Chain) (latest count : Int)
    (hneg : latest - count + 1 < 0) (hlatest : 0 ≤ latest) :
    (latest - count + 1) ∈ blockRange latest count ∧
    latest - count + 1 < 0 ∧
    Event.fetch (latest - count + 1) ∈ (analyze_blocks chain latest count).1 := by
  have hc : 0 < count := by omega
  obtain ⟨rest, hr⟩ := blockRange_cons latest count hc
  refine ⟨?_, hneg, ?_⟩
  · rw [hr]
    exact List.mem_cons_self _ _
  · unfold analyze_blocks
    rw [hr]
    exact fetch_mem_analyzeLoop chain latest count _ rest

/-- Witness for C9: head 1, count 5 visits block -3 and fetches it. -/
theorem analyze_requests_negative_blocks_witness :
    ((1 : Int) - 5 + 1) ∈ blockRange 1 5 ∧
    (1 : Int) - 5 + 1 < 0 ∧
    Event.fetch ((1 : Int) - 5 + 1) ∈ (analyze_blocks (fun _ => none) 1 5).1 :=
  analyze_requests_negative_blocks (fun _ => none) 1 5 (by decide) (by decide)

/-- C2: with `count >= 1` and a well-behaved chain over the requested range,
`analyze_blocks` returns exactly `count` records, with `block_number`
increasing strictly by 1 across consecutive elements and ending at the head
`latest` observed at call time. -/
theorem analyze_blocks_count_ascending_to_head (chain : Chain) (latest count : Int)
    (hcount : 1 ≤ count)
    (hchain : ∀ i ∈ blockRange latest count,
      ∃ m, fetch_gas_data chain i = some m ∧ m.block_number = i) :
    ∃ ms, (analyze_blocks chain latest count).2 = some ms ∧
      ms.length = count.toNat ∧
      (∀ (k : ℕ) (hk1 : k + 1 < ms.length) (hk : k < ms.length),
        (ms.get ⟨k + 1, hk1⟩).block_number = (ms.get ⟨k, hk⟩).block_number + 1) ∧
      ∃ m, ms.getLast? = some m ∧ m.block_number = latest := by
  obtain ⟨ms, h1, h2, _⟩ :=
    analyzeLoop_success chain latest count (blockRange latest count) hchain
  have hlen : ms.length = count.toNat := by
    have hl := congrArg List.length h2
    rwa [List.length_map, blockRange_length] at hl
  have hget : ∀ (j : ℕ) (hj : j < ms.length),
      (ms.get ⟨j, hj⟩).block_number = latest - count + 1 + (j : Int) := by
    intro j hj
    have h2' := congrArg (fun l => l[j]?) h2
    simp only [List.getElem?_map] at h2'
    have hj' : j < (blockRange latest count).length := by
      rw [blockRange_length]
      omega
    rw [List.getElem?_eq_getElem hj, List.getElem?_eq_getElem hj'] at h2'
    simp only [Option.map_some'] at h2'
    have hv := Option.some.inj h2'
    have hb := blockRange_get latest count j hj'
    rw [List.get_eq_getElem] at hb
    rw [List.get_eq_getElem, hv, hb]
  refine ⟨ms, h1, hlen, ?_, ?_⟩
  · intro k hk1 hk
    rw [hget (k + 1) hk1, hget k hk]
    push_cast
    ring
  · have hpos : 0 < ms.length := by omega
    have hne : ms ≠ [] := by
      intro e
      rw [e] at hpos
      simp at hpos
    refine ⟨ms.getLast hne, List.getLast?_eq_getLast_of_ne_nil hne, ?_⟩
    rw [List.getLast_eq_getElem]
    have hlt : ms.length - 1 < ms.length := by omega
    have hg := hget (ms.length - 1) hlt
    rw [List.get_eq_getElem] at hg
    rw [hg, hlen]
    omega

/-- Witness for C2: head 1000, count 3 yields blocks [998, 999, 1000]. -/
theorem analyze_blocks_count_ascending_to_head_witness :
    (∃ ms, (analyze_blocks demoChain 1000 3).2 = some ms ∧
      ms.length = (3 : Int).toNat ∧
      (∀ (k : ℕ) (hk1 : k + 1 < ms.length) (hk : k < ms.length),
        (ms.get ⟨k + 1, hk1⟩).block_number = (ms.get ⟨k, hk⟩).block_number + 1) ∧
      ∃ m, ms.getLast? = some m ∧ m.block_number = 1000) ∧
    (analyze_blocks demoChain 1000 3).2.map (fun ms => ms.map (fun m => m.block_number)) =
      some [998, 999, 1000] :=
  ⟨analyze_blocks_count_ascending_to_head demoChain 1000 3 (by decide)
     (fun i _ => fetch_gas_data_spec demoChain i _ 0 rfl rfl rfl),
   by decide⟩

/-- C7 counterexample: with head 1000 and count 1, the emitted trace is the
progress notification FOLLOWED by the fetch of block 1000 — not the fetch
followed by the notification, as the claim ("emitted after the fetch of that
block completes") requires at this input. -/
theorem progress_before_fetch_counterexample :
    (analyze_blocks demoChain 1000 1).1 = [Event.progress 1 1 100, Event.fetch 1000] ∧
    (analyze_blocks demoChain 1000 1).1 ≠ [Event.fetch 1000, Event.progress 1 1 100] := by
  have h : (analyze_blocks demoChain 1000 1).1 =
      [Event.progress 1 1 100, Event.fetch 1000] := by
    norm_num [analyze_blocks, blockRange, analyzeLoop, fetch_gas_data, demoChain]
  refine ⟨h, ?_⟩
  rw [h]
  simp

/-- C7 (amended): during `analyze_blocks`, each block's progress notification
(current position, total count, `processed / count * 100`) is emitted
immediately BEFORE that block's fetch, and the notifications are a side
channel separate from the returned record sequence. -/
theorem analyze_blocks_progress_precedes_fetch (chain : Chain) (latest count : Int)
    (hchain : ∀ i ∈ blockRange latest count,
      ∃ m, fetch_gas_data chain i = some m ∧ m.block_number = i) :
    (analyze_blocks chain latest count).1 =
      (blockRange latest count).flatMap (fun i =>
        [Event.progress (i - (latest - count + 1) + 1) count
           (((i - (latest - count + 1) + 1 : Int) : ℚ) / ((count : Int) : ℚ) * 100),
         Event.fetch i]) := by
  obtain ⟨ms, _, _, h3⟩ :=
    analyzeLoop_success chain latest count (blockRange latest count) hchain
  exact h3

/-- Witness for C7 (amended), at head 1000 and count 2. -/
theorem analyze_blocks_progress_precedes_fetch_witness :
    (analyze_blocks demoChain 1000 2).1 =
      (blockRange 1000 2).flatMap (fun i =>
        [Event.progress (i - (1000 - 2 + 1) + 1) 2
           (((i - (1000 - 2 + 1) + 1 : Int) : ℚ) / ((2 : Int) : ℚ) * 100),
         Event.fetch i]) :=
  analyze_blocks_progress_precedes_fetch demoChain 1000 2
    (fun i _ => fetch_gas_data_spec demoChain i _ 0 rfl rfl rfl)

/-- Unfolding equation of `summarize` on a non-empty list. -/
theorem summarize_cons (b : BlockMetrics) (bs : List BlockMetrics) :
    summarize (b :: bs) =
      [("avg_utilization_percent", JVal.q (pyRound 2
          (((b :: bs).map (fun x => x.utilization_percent)).sum /
           ((((b :: bs).map (fun x => x.utilization_percent)).length : ℕ) : ℚ)))),
       ("max_utilization_percent", JVal.q (pyRound 2
          ((bs.map (fun x => x.utilization_percent)).foldl max b.utilization_percent))),
       ("min_utilization_percent", JVal.q (pyRound 2
          ((bs.map (fun x => x.utilization_percent)).foldl min b.utilization_percent))),
       ("avg_base_fee_gwei", JVal.q (pyRound 3
          (((((b :: bs).map (fun x => x.base_fee_wei)).sum : Int) : ℚ) /
           ((((b :: bs).length : ℕ)) : ℚ) / (10 ^ 9 : ℚ)))),
       ("total_blocks", JVal.n (b :: bs).length)] := rfl

/-- C4: for every non-empty sequence, the summary satisfies
`min_utilization <= avg_utilization <= max_utilization`. -/
theorem summarize_min_avg_max_ordered (b : BlockMetrics) (bs : List BlockMetrics) :
    ∃ a hi lo fee,
      summarize (b :: bs) =
        [("avg_utilization_percent", JVal.q a),
         ("max_utilization_percent", JVal.q hi),
         ("min_utilization_percent", JVal.q lo),
         ("avg_base_fee_gwei", JVal.q fee),
         ("total_blocks", JVal.n (b :: bs).length)] ∧
      lo ≤ a ∧ a ≤ hi := by
  refine ⟨_, _, _, _, summarize_cons b bs, ?_, ?_⟩
  · have h := pyRound_mono 2
      (avg_between b.utilization_percent (bs.map (fun x => x.utilization_percent))).1
    simpa only [List.map_cons] using h
  · have h := pyRound_mono 2
      (avg_between b.utilization_percent (bs.map (fun x => x.utilization_percent))).2
    simpa only [List.map_cons] using h

/-- Scenario blocks for C5: utilizations 10, 20, 30; base fees 1e9, 2e9, 3e9. -/
def blockA : BlockMetrics :=
  { block_number := 1, base_fee_wei := 1000000000, gas_limit := 30000000,
    gas_used := 3000000, utilization_percent := 10, timestamp := 0 }

def blockB : BlockMetrics :=
  { block_number := 2, base_fee_wei := 2000000000, gas_limit := 30000000,
    gas_used := 6000000, utilization_percent := 20, timestamp := 0 }

def blockC : BlockMetrics :=
  { block_number := 3, base_fee_wei := 3000000000, gas_limit := 30000000,
    gas_used := 9000000, utilization_percent := 30, timestamp := 0 }

/-- C5: on a non-empty sequence, `summarize` reports the arithmetic mean of
the utilizations rounded to 2 decimals, their greatest and least values
rounded to 2 decimals, the mean base fee divided by 10^9 rounded to 3
decimals, and the element count; on the scenario blocks it yields
avg 20, max 30, min 10, avg base fee 2 gwei, 3 blocks. -/
theorem summarize_statistics :
    (∀ (b : BlockMetrics) (bs : List BlockMetrics),
      ∃ hi lo,
        summarize (b :: bs) =
          [("avg_utilization_percent", JVal.q (pyRound 2
              (((b :: bs).map (fun x => x.utilization_percent)).sum /
               ((((b :: bs).map (fun x => x.utilization_percent)).length : ℕ) : ℚ)))),
           ("max_utilization_percent", JVal.q (pyRound 2 hi)),
           ("min_utilization_percent", JVal.q (pyRound 2 lo)),
           ("avg_base_fee_gwei", JVal.q (pyRound 3
              (((((b :: bs).map (fun x => x.base_fee_wei)).sum : Int) : ℚ) /
               ((((b :: bs).length : ℕ)) : ℚ) / (10 ^ 9 : ℚ)))),
           ("total_blocks", JVal.n (b :: bs).length)] ∧
        hi ∈ (b :: bs).map (fun x => x.utilization_percent) ∧
        (∀ x ∈ (b :: bs).map (fun x => x.utilization_percent), x ≤ hi) ∧
        lo ∈ (b :: bs).map (fun x => x.utilization_percent) ∧
        (∀ x ∈ (b :: bs).map (fun x => x.utilization_percent), lo ≤ x)) ∧
    summarize [blockA, blockB, blockC] =
      [("avg_utilization_percent", JVal.q 20),
       ("max_utilization_percent", JVal.q 30),
       ("min_utilization_percent", JVal.q 10),
       ("avg_base_fee_gwei", JVal.q 2),
       ("total_blocks", JVal.n 3)] := by
  constructor
  · intro b bs
    refine ⟨_, _, summarize_cons b bs, ?_, ?_, ?_, ?_⟩
    · rcases foldl_max_choice (bs.map (fun x => x.utilization_percent))
        b.utilization_percent with h | h
      · rw [h]
        exact List.mem_cons_self _ _
      · exact List.mem_cons_of_mem _ h
    · intro x hx
      simp only [List.map_cons, List.mem_cons] at hx
      rcases hx with rfl | hx
      · exact le_foldl_max _ _
      · exact mem_le_foldl_max _ _ _ hx
    · rcases foldl_min_choice (bs.map (fun x => x.utilization_percent))
        b.utilization_percent with h | h
      · rw [h]
        exact List.mem_cons_self _ _
      · exact List.mem_cons_of_mem _ h
    · intro x hx
      simp only [List.map_cons, List.mem_cons] at hx
      rcases hx with rfl | hx
      · exact foldl_min_le _ _
      · exact foldl_min_le_mem _ _ _ hx
  · norm_num [summarize, blockA, blockB, blockC, pyRound, rhe_def, max_def, min_def]

/-- C10: when a response's extracted gas fields satisfy
`0 <= gas_used <= gas_limit`, the fetched record's utilization lies in
[0, 100]; and a non-empty sequence of records with utilizations in [0, 100]
yields summary avg/max/min utilization fields in [0, 100]. -/
theorem utilization_and_summary_bounds :
    (∀ (chain : Chain) (i : Int) (b : RpcBlock) (m : BlockMetrics),
       chain i = some b →
       0 ≤ b.gasUsed.getD 0 → b.gasUsed.getD 0 ≤ b.gasLimit.getD 0 →
       fetch_gas_data chain i = some m →
       0 ≤ m.utilization_percent ∧ m.utilization_percent ≤ 100) ∧
    (∀ (b : BlockMetrics) (bs : List BlockMetrics),
       (∀ x ∈ b :: bs, 0 ≤ x.utilization_percent ∧ x.utilization_percent ≤ 100) →
       ∃ a hi lo fee,
         summarize (b :: bs) =
           [("avg_utilization_percent", JVal.q a),
            ("max_utilization_percent", JVal.q hi),
            ("min_utilization_percent", JVal.q lo),
            ("avg_base_fee_gwei", JVal.q fee),
            ("total_blocks", JVal.n (b :: bs).length)] ∧
         (0 ≤ a ∧ a ≤ 100) ∧ (0 ≤ hi ∧ hi ≤ 100) ∧ (0 ≤ lo ∧ lo ≤ 100)) := by
  constructor
  · intro chain i b m hb h0U hUL hm
    obtain ⟨b', hb', _, _, _, hL, hU, hutil⟩ := fetch_gas_data_eq chain i m hm
    have hbb : b' = b := by
      rw [hb] at hb'
      exact (Option.some.inj hb').symm
    subst hbb
    by_cases hL0 : b'.gasLimit.getD 0 = 0
    · rw [hutil, if_neg (not_not_intro hL0)]
      norm_num
    · have hLpos : (0 : ℤ) < b'.gasLimit.getD 0 := by omega
      have hLq : (0 : ℚ) < (b'.gasLimit.getD 0 : ℚ) := by exact_mod_cast hLpos
      have hUq : (0 : ℚ) ≤ (b'.gasUsed.getD 0 : ℚ) := by exact_mod_cast h0U
      have hx0 : (0 : ℚ) ≤ (b'.gasUsed.getD 0 : ℚ) / (b'.gasLimit.getD 0 : ℚ) * 100 := by
        have := div_nonneg hUq (le_of_lt hLq)
        linarith
      have hx100 : (b'.gasUsed.getD 0 : ℚ) / (b'.gasLimit.getD 0 : ℚ) * 100 ≤ 100 := by
        have h1 : (b'.gasUsed.getD 0 : ℚ) / (b'.gasLimit.getD 0 : ℚ) ≤ 1 :=
          (div_le_one hLq).mpr (by exact_mod_cast hUL)
        linarith
      rw [hutil, if_pos hL0]
      exact ⟨pyRound_nonneg 2 hx0, pyRound_le_hundred 2 hx100⟩
  · intro b bs h
    have hu : ∀ x ∈ bs.map (fun x => x.utilization_percent), 0 ≤ x ∧ x ≤ 100 := by
      intro x hx
      obtain ⟨y, hy, rfl⟩ := List.mem_map.mp hx
      exact h y (List.mem_cons_of_mem b hy)
    have hb0 := h b (List.mem_cons_self b bs)
    have hlo0 : (0 : ℚ) ≤ (bs.map (fun x => x.utilization_percent)).foldl min
        b.utilization_percent :=
      le_foldl_min _ _ _ hb0.1 (fun x hx => (hu x hx).1)
    have hhi100 : (bs.map (fun x => x.utilization_percent)).foldl max
        b.utilization_percent ≤ 100 :=
      foldl_max_le _ _ _ hb0.2 (fun x hx => (hu x hx).2)
    have hlo_le_hi :
        (bs.map (fun x => x.utilization_percent)).foldl min b.utilization_percent ≤
          (bs.map (fun x => x.utilization_percent)).foldl max b.utilization_percent :=
      le_trans (foldl_min_le _ _) (le_foldl_max _ _)
    have havg := avg_between b.utilization_percent (bs.map (fun x => x.utilization_percent))
    refine ⟨_, _, _, _, summarize_cons b bs, ?_, ?_, ?_⟩
    · constructor
      · apply pyRound_nonneg
        have h1 : (0 : ℚ) ≤
            (b.utilization_percent :: bs.map (fun x => x.utilization_percent)).sum /
              (((b.utilization_percent ::
                  bs.map (fun x => x.utilization_percent)).length : ℕ) : ℚ) :=
          le_trans hlo0 havg.1
        simpa only [List.map_cons] using h1
      · apply pyRound_le_hundred
        have h1 : (b.utilization_percent :: bs.map (fun x => x.utilization_percent)).sum /
              (((b.utilization_percent ::
                  bs.map (fun x => x.utilization_percent)).length : ℕ) : ℚ) ≤ 100 :=
          le_trans havg.2 hhi100
        simpa only [List.map_cons] using h1
    · exact ⟨pyRound_nonneg 2 (le_trans hlo0 hlo_le_hi), pyRound_le_hundred 2 hhi100⟩
    · exact ⟨pyRound_nonneg 2 hlo0, pyRound_le_hundred 2 (le_trans hlo_le_hi hhi100)⟩

/-- Witness for C10: the demo block (gas used 15000000 of 30000000) has
utilization 50 in [0, 100], and the one-element summary stays in [0, 100]. -/
theorem utilization_and_summary_bounds_witness :
    (0 ≤ demoMetrics.utilization_percent ∧ demoMetrics.utilization_percent ≤ 100) ∧
    (∃ a hi lo fee,
       summarize [demoMetrics] =
         [("avg_utilization_percent", JVal.q a),
          ("max_utilization_percent", JVal.q hi),
          ("min_utilization_percent", JVal.q lo),
          ("avg_base_fee_gwei", JVal.q fee),
          ("total_blocks", JVal.n ([demoMetrics] : List BlockMetrics).length)] ∧
       (0 ≤ a ∧ a ≤ 100) ∧ (0 ≤ hi ∧ hi ≤ 100) ∧ (0 ≤ lo ∧ lo ≤ 100)) :=
  ⟨utilization_and_summary_bounds.1 demoChain 998 demoRpc demoMetrics rfl
     (by decide) (by decide)
     (by norm_num [fetch_gas_data, demoChain, demoMetrics, pyRound, rhe_def]),
   utilization_and_summary_bounds.2 demoMetrics [] (by norm_num [demoMetrics])⟩

/-- Witness for C4 at the one-element sequence `[blockA]`. -/
theorem summarize_min_avg_max_ordered_witness :
    ∃ a hi lo fee,
      summarize [blockA] =
        [("avg_utilization_percent", JVal.q a),
         ("max_utilization_percent", JVal.q hi),
         ("min_utilization_percent", JVal.q lo),
         ("avg_base_fee_gwei", JVal.q fee),
         ("total_blocks", JVal.n ([blockA] : List BlockMetrics).length)] ∧
      lo ≤ a ∧ a ≤ hi :=
  summarize_min_avg_max_ordered blockA []

/-- Witness for C5: the three-block scenario summary. -/
theorem summarize_statistics_witness :
    summarize [blockA, blockB, blockC] =
      [("avg_utilization_percent", JVal.q 20),
       ("max_utilization_percent", JVal.q 30),
       ("min_utilization_percent", JVal.q 10),
       ("avg_base_fee_gwei", JVal.q 2),
       ("total_blocks", JVal.n 3)] :=
  summarize_statistics.2

/-- Witness for C6: the sentinel, and its difference from a one-block summary. -/
theorem summarize_empty_sentinel_witness :
    summarize [] = [("ok", JVal.b false), ("msg", JVal.s "No data")] ∧
    summarize [blockA] ≠ summarize [] :=
  ⟨summarize_empty_sentinel.1, summarize_empty_sentinel.2 blockA []⟩

/-- Witness for C8 at head 5, count 0. -/
theorem empty_sequence_keyerror_witness :
    (analyze_blocks demoChain 5 0).2 = some [] ∧
    (summarize []).map Prod.fst = ["ok", "msg"] ∧
    (summarize []).lookup "avg_utilization_percent" = none ∧
    mainRun demoChain 5 0 = Outcome.uncaught "KeyError: avg_utilization_percent" ∧
    ∀ c : ℕ, mainRun demoChain 5 0 ≠ Outcome.exit c :=
  empty_sequence_keyerror demoChain 5
